import Mathlib

/-!
Verification development for the sitefetch MCP server (src/index.ts).

The development shallowly embeds the cache/metadata subsystem of the server:
the metadata index document, the blob cache directory, the fetch
orchestration (`fetchSite`), the percent-encoded `sitefetch://` resource
identifiers, the title extraction, and the clear/list/add-to-context tools.

Modelling conventions:
- The file system state visible to the program is a `Store`: the cache
  directory as an association list from file name to blob content, and the
  metadata document as a `MetaDoc` that can be absent, present-but-unparseable,
  or a parsed mapping.
- The md5 digest (`crypto.createHash("md5")`) is an external library routine;
  it is modelled as an abstract function parameter `hash : String → String`.
  No claim depends on properties of md5 itself.
- The external crawler process (`npx sitefetch <url> -o <filePath>`) is
  modelled by a function `crawler : String → CrawlerResult`.  The code hands
  the crawler the final cache path as its output path, so on failure the
  crawler may have left arbitrary (partial) content there; `CrawlerResult`
  records what the invocation leaves at the output path.
- Timestamps (`new Date().toISOString()`) are modelled as a `Nat` parameter
  `now` supplied to each operation.
- Strings are Lean `String`s; the percent-encoding layer works on `List Char`
  (JavaScript strings at the code-point level; lone surrogates are outside
  the legal URL character set and outside Lean `Char`).
-/

namespace SiteFetch

/-- Metadata record for one captured URL, as stored in
`sitefetch_metadata.json`: `{ url, fetchedAt, title }` (src/index.ts line 108). -/
structure CacheRecord where
  url : String
  fetchedAt : Nat
  title : String
deriving Repr, DecidableEq

/-- State of the backing metadata document `sitefetch_metadata.json`:
absent, present but unparseable by `JSON.parse`, or a parsed mapping. -/
inductive MetaDoc where
  | absent
  | corrupt
  | present (entries : List (String × CacheRecord))
deriving Repr, DecidableEq

/-- Embedding of `loadMetadata` (src/index.ts lines 51-59): `fs.readFile`
throws when the document is absent and `JSON.parse` throws when it is
unparseable; the single catch-all returns `{}` in both cases. -/
def loadMetadata : MetaDoc → List (String × CacheRecord)
  | .absent => []
  | .corrupt => []
  | .present m => m

/-- File-system state visible to the program: the cache directory
(file name to blob content) and the metadata document. -/
structure Store where
  cache : List (String × String)
  metaDoc : MetaDoc
deriving Repr, DecidableEq

/-- Embedding of `saveMetadata` (src/index.ts lines 62-64): overwrites the
whole metadata document with the given mapping. -/
def saveMetadata (m : List (String × CacheRecord)) (s : Store) : Store :=
  { s with metaDoc := .present m }

/-- Embedding of `getFileNameFromUrl` (src/index.ts lines 40-43): the md5 hex
digest of the URL followed by `.txt`.  The digest is the abstract `hash`. -/
def getFileNameFromUrl (hash : String → String) (url : String) : String :=
  hash url ++ ".txt"

/-- Overwriting update of an association list, used to model both writing a
blob file into the cache directory and `metadata[fileHash] = record`. -/
def setEntry {β : Type} (k : String) (v : β) (l : List (String × β)) :
    List (String × β) :=
  (k, v) :: l.filter (fun p => p.1 != k)

/-- Characters left unescaped by JavaScript `encodeURIComponent`:
`A-Z a-z 0-9 - _ . ! ~ * quote ( )` (given by code point). -/
def isUnreservedURI (n : Nat) : Bool :=
  (65 ≤ n && n ≤ 90) || (97 ≤ n && n ≤ 122) || (48 ≤ n && n ≤ 57) ||
  n == 45 || n == 95 || n == 46 || n == 33 || n == 126 || n == 42 ||
  n == 39 || n == 40 || n == 41

/-- UTF-8 byte sequence of a code point, as `encodeURIComponent` produces
before escaping each byte. -/
def utf8Bytes (n : Nat) : List Nat :=
  if n < 128 then [n]
  else if n < 2048 then [192 + n / 64, 128 + n % 64]
  else if n < 65536 then [224 + n / 4096, 128 + n / 64 % 64, 128 + n % 64]
  else [240 + n / 262144, 128 + n / 4096 % 64, 128 + n / 64 % 64, 128 + n % 64]

/-- Uppercase hex digit for a value below 16, as produced by
`encodeURIComponent` escapes. -/
def hexDigitChar (n : Nat) : Char :=
  if n < 10 then Char.ofNat (48 + n) else Char.ofNat (55 + n)

/-- Percent escape of one byte: the percent sign (code point 37) followed by
two uppercase hex digits. -/
def escapeByte (b : Nat) : List Char :=
  [Char.ofNat 37, hexDigitChar (b / 16), hexDigitChar (b % 16)]

/-- Embedding of JavaScript `encodeURIComponent` at the code-point level:
unreserved characters pass through, every other character is replaced by
the percent escapes of its UTF-8 bytes. -/
def encodeURIComponentL : List Char → List Char
  | [] => []
  | c :: rest =>
    (if isUnreservedURI c.toNat then [c]
     else ((utf8Bytes c.toNat).map escapeByte).flatten) ++ encodeURIComponentL rest

/-- Value of one hex digit character, case-insensitive, as accepted by
`decodeURIComponent` escapes. -/
def hexVal (c : Char) : Option Nat :=
  let n := c.toNat
  if 48 ≤ n && n ≤ 57 then some (n - 48)
  else if 65 ≤ n && n ≤ 70 then some (n - 55)
  else if 97 ≤ n && n ≤ 102 then some (n - 87)
  else none

/-- First pass of `decodeURIComponent`: replace every `%hh` escape by the
byte it denotes (`Sum.inl`), leave every other character as itself
(`Sum.inr`); fail on a malformed escape. -/
def tokenize : List Char → Option (List (Sum Nat Char))
  | [] => some []
  | c :: rest =>
    if c.toNat = 37 then
      match rest with
      | h1 :: h2 :: rest2 =>
        match hexVal h1, hexVal h2 with
        | some a, some b => (tokenize rest2).map (fun t => Sum.inl (16 * a + b) :: t)
        | _, _ => none
      | _ => none
    else (tokenize rest).map (fun t => Sum.inr c :: t)

/-- Consume `k` continuation bytes (each of the form `10xxxxxx`, each coming
from an escape) and return their accumulated 6-bit payloads together with the
remaining tokens. -/
def takeCont : Nat → List (Sum Nat Char) → Option (Nat × List (Sum Nat Char))
  | 0, ts => some (0, ts)
  | k + 1, .inl b :: ts =>
    if 128 ≤ b && b < 192 then
      (takeCont k ts).map (fun p => ((b - 128) * 64 ^ k + p.1, p.2))
    else none
  | _ + 1, _ => none

/-- Second pass of `decodeURIComponent` with explicit fuel (one unit per
token): decode the UTF-8 byte groups coming from contiguous escapes back
into characters; literal characters pass through.  A lead byte must be
followed by the right number of continuation bytes, each itself coming from
an escape, exactly as in JavaScript. -/
def detokF : Nat → List (Sum Nat Char) → Option (List Char)
  | _, [] => some []
  | 0, _ :: _ => none
  | fuel + 1, .inr c :: ts => (detokF fuel ts).map (fun t => c :: t)
  | fuel + 1, .inl b :: ts =>
    if b < 128 then (detokF fuel ts).map (fun t => Char.ofNat b :: t)
    else if b < 192 then none
    else if b < 224 then
      match takeCont 1 ts with
      | some (v, ts2) => (detokF fuel ts2).map (fun t => Char.ofNat ((b - 192) * 64 + v) :: t)
      | none => none
    else if b < 240 then
      match takeCont 2 ts with
      | some (v, ts2) => (detokF fuel ts2).map (fun t => Char.ofNat ((b - 224) * 4096 + v) :: t)
      | none => none
    else if b < 248 then
      match takeCont 3 ts with
      | some (v, ts2) => (detokF fuel ts2).map (fun t => Char.ofNat ((b - 240) * 262144 + v) :: t)
      | none => none
    else none

/-- Second pass of `decodeURIComponent`: every step consumes at least one
token and exactly one unit of fuel, so fuel equal to the token count always
suffices. -/
def detok (ts : List (Sum Nat Char)) : Option (List Char) :=
  detokF ts.length ts

/-- Embedding of JavaScript `decodeURIComponent` at the code-point level. -/
def decodeURIComponentL (s : List Char) : Option (List Char) :=
  (tokenize s).bind detok

/-- Canonical resource identifier built by the code
(src/index.ts lines 137-138): the `sitefetch://` scheme followed by the
percent-encoded source URL. -/
def toIdentifier (u : List Char) : List Char :=
  "sitefetch://".data ++ encodeURIComponentL u

/-- Inverse direction: the `ResourceTemplate "sitefetch://{url}"` match
strips the scheme prefix and the resource handler applies
`decodeURIComponent` to the remainder (src/index.ts lines 298-302). -/
def fromIdentifier (s : List Char) : Option (List Char) :=
  if "sitefetch://".data.isPrefixOf s then
    decodeURIComponentL (s.drop 12)
  else none

/-- Token stream produced by percent-encoding a string: unreserved characters
stay literal, every other character contributes the escapes of its UTF-8
bytes.  Proof device relating `tokenize` and `encodeURIComponentL`. -/
def encodeTokens : List Char → List (Sum Nat Char)
  | [] => []
  | c :: rest =>
    (if isUnreservedURI c.toNat then [Sum.inr c]
     else (utf8Bytes c.toNat).map Sum.inl) ++ encodeTokens rest

/-- Lowercase an ASCII letter, for the case-insensitive `i` flag of the
title regex. -/
def lowerChar (c : Char) : Char :=
  if 65 ≤ c.toNat && c.toNat ≤ 90 then Char.ofNat (c.toNat + 32) else c

/-- Check whether the pattern (given already lowercased) matches the head of
the input case-insensitively. -/
def prefixLower : List Char → List Char → Bool
  | [], _ => true
  | _ :: _, [] => false
  | p :: ps, c :: cs => (p == lowerChar c) && prefixLower ps cs

/-- Line terminators, which the `.` of a JavaScript regex never matches:
LF, CR, U+2028, U+2029. -/
def isLineTerm (c : Char) : Bool :=
  c.toNat == 10 || c.toNat == 13 || c.toNat == 8232 || c.toNat == 8233

/-- Scan for the closing `</title>` tag, accumulating the (reversed) body of
the non-greedy capture group `(.*?)`: at each position the close tag is
tried first (shortest match), and the scan consumes one more character only
if it is not a line terminator. -/
def findClose : List Char → List Char → Option (List Char)
  | [], acc => if prefixLower "</title>".data [] then some acc.reverse else none
  | c :: rest, acc =>
    if prefixLower "</title>".data (c :: rest) then some acc.reverse
    else if isLineTerm c then none
    else findClose rest (c :: acc)

/-- Try to match `<title>(.*?)</title>` (case-insensitive) at the start of
the input, returning the captured group. -/
def matchTitleFrom (s : List Char) : Option (List Char) :=
  if prefixLower "<title>".data s then findClose (s.drop 7) [] else none

/-- Leftmost match of `/<title>(.*?)<\/title>/i`: positions are tried left
to right, as the JavaScript regex engine does. -/
def titleSearch : List Char → Option (List Char)
  | [] => none
  | c :: rest =>
    match matchTitleFrom (c :: rest) with
    | some b => some b
    | none => titleSearch rest

/-- White-space characters removed by JavaScript `String.prototype.trim`. -/
def isJsSpace (c : Char) : Bool :=
  c.toNat == 32 || c.toNat == 9 || c.toNat == 10 || c.toNat == 11 ||
  c.toNat == 12 || c.toNat == 13 || c.toNat == 160 || c.toNat == 5760 ||
  (8192 ≤ c.toNat && c.toNat ≤ 8202) || c.toNat == 8232 || c.toNat == 8233 ||
  c.toNat == 8239 || c.toNat == 8287 || c.toNat == 12288 || c.toNat == 65279

/-- Embedding of JavaScript `trim`: drop white space from both ends. -/
def trimL (s : List Char) : List Char :=
  ((s.dropWhile isJsSpace).reverse.dropWhile isJsSpace).reverse

/-- Embedding of `extractTitle` (src/index.ts lines 67-73):
`content.match(/<title>(.*?)<\/title>/i)`; the guard `titleMatch[1]` is
JavaScript truthiness, so an empty captured group falls through to the
sentinel, while a non-empty captured group is returned trimmed. -/
def extractTitle (content : String) : String :=
  match titleSearch content.data with
  | some b => if b.isEmpty then "No title found" else String.mk (trimL b)
  | none => "No title found"

/-- Display-name fallback `data.title || data.url` used by the resource
listing (src/index.ts line 287) and the list-sites tool (line 345): the
URL is shown exactly when the title is absent or the empty string. -/
def displayName (title url : String) : String :=
  if title = "" then url else title

/-- Outcome of one invocation of the external crawler process
`npx sitefetch <url> -o <filePath>`.  On failure the process may have
left partial output at the output path it was handed (the final cache
path), recorded in `leftAtOutputPath`. -/
inductive CrawlerResult where
  | success (content : String)
  | failure (leftAtOutputPath : Option String)
deriving Repr, DecidableEq

/-- Observable store events of one operation, in program order. -/
inductive Ev where
  | invokeCrawler (url : String)
  | blobWrite (fname : String)
  | metaWrite
  | blobDelete (fname : String)
deriving Repr, DecidableEq

/-- Predicate selecting crawler invocations in a trace. -/
def Ev.isInvoke : Ev → Bool
  | .invokeCrawler _ => true
  | _ => false

/-- Result of a `fetchSite` call: the returned content or the thrown error,
the file-system state afterwards, and the ordered store events. -/
inductive FetchOutcome where
  | ok (content : String)
  | err (msg : String)
deriving Repr, DecidableEq

structure FetchResult where
  result : FetchOutcome
  store : Store
  trace : List Ev
deriving Repr, DecidableEq

/-- Embedding of `fetchSite` (src/index.ts lines 76-121).  The cache-hit
check is `fs.access(filePath)` (blob existence); on a hit the blob is read
and returned with no writes.  Otherwise the crawler is invoked with the
final cache path as its output path; on success the code reads the blob
back, extracts a title, overwrites `metadata[fileHash]` with a fresh
record and saves the metadata document; on failure the error is rethrown
with nothing saved, but whatever the crawler left at the output path
remains. -/
def fetchSite (hash : String → String) (crawler : String → CrawlerResult)
    (now : Nat) (url : String) (forceRefresh : Bool) (s : Store) : FetchResult :=
  let filePath := getFileNameFromUrl hash url
  let metadata := loadMetadata s.metaDoc
  if !forceRefresh && (s.cache.lookup filePath).isSome then
    { result := .ok ((s.cache.lookup filePath).getD ""), store := s, trace := [] }
  else
    match crawler url with
    | .success content =>
      let title := extractTitle content
      let metadataAfter :=
        setEntry filePath { url := url, fetchedAt := now, title := title } metadata
      { result := .ok content,
        store := saveMetadata metadataAfter { s with cache := setEntry filePath content s.cache },
        trace := [.invokeCrawler url, .blobWrite filePath, .metaWrite] }
    | .failure leftover =>
      match leftover with
      | none =>
        { result := .err "Failed to fetch site", store := s, trace := [.invokeCrawler url] }
      | some leftContent =>
        { result := .err "Failed to fetch site",
          store := { s with cache := setEntry filePath leftContent s.cache },
          trace := [.invokeCrawler url, .blobWrite filePath] }

/-- Embedding of the `addToContext` helper (src/index.ts lines 135-161): it
only sends a notification; whether the client supports notifications is the
external flag `canNotify`, and the helper reports whether it notified. -/
def addToContext (canNotify : Bool) : Bool :=
  canNotify

/-- Embedding of the `add-to-context` tool (src/index.ts lines 219-276): it
requires the blob to already exist (`fs.access`), failing with a
not-found error otherwise; it never fetches and never writes. -/
def addToContextTool (hash : String → String) (canNotify : Bool) (url : String)
    (s : Store) : FetchOutcome × Store :=
  let filePath := getFileNameFromUrl hash url
  match s.cache.lookup filePath with
  | none =>
    (.err ("Error: Content for " ++ url ++ " not found. Please fetch it first with fetch-site."), s)
  | some content =>
    if addToContext canNotify then
      (.ok ("Added content from " ++ url ++ " to your context."), s)
    else
      (.err ("Failed to add content to context. The content is available at resource URI: sitefetch://" ++ String.mk (encodeURIComponentL url.data) ++ " length " ++ toString content.length), s)

/-- Hint appended to resource contents by the resource read handler
(src/index.ts line 307). -/
def contextHint (decodedUrl : String) : String :=
  "\n\n---\nTo add this content to your conversation context, use: add-to-context " ++ decodedUrl

/-- Embedding of the `site-content` resource read handler
(src/index.ts lines 298-321): decode the `{url}` template variable with
`decodeURIComponent`, call `fetchSite(decodedUrl)` — `forceRefresh`
defaulting to false — and return the content with a context hint
appended. -/
def resourceRead (hash : String → String) (crawler : String → CrawlerResult)
    (now : Nat) (urlParam : String) (s : Store) : FetchOutcome × Store × List Ev :=
  match decodeURIComponentL urlParam.data with
  | none => (.err "URI malformed", s, [])
  | some chars =>
    let decodedUrl := String.mk chars
    let fr := fetchSite hash crawler now decodedUrl false s
    match fr.result with
    | .ok content => (.ok (content ++ contextHint decodedUrl), fr.store, fr.trace)
    | .err e => (.err ("Failed to fetch site: " ++ e), fr.store, fr.trace)

/-- One entry of the resource listing (src/index.ts lines 282-292). -/
structure SiteDescriptor where
  name : String
  uri : String
  description : String
deriving Repr, DecidableEq

/-- Embedding of the resource `list` callback (src/index.ts lines 282-292):
derived from the metadata document on every call; `name` falls back from
title to URL by JavaScript truthiness. -/
def listResources (s : Store) : List SiteDescriptor :=
  (loadMetadata s.metaDoc).map (fun kv =>
    { name := displayName kv.2.title kv.2.url,
      uri := "sitefetch://" ++ String.mk (encodeURIComponentL kv.2.url.data),
      description := "Fetched: " ++ toString kv.2.fetchedAt })

/-- Embedding of the `list-sites` tool (src/index.ts lines 324-362): a pure
read of the metadata document; the store is untouched. -/
def listSitesTool (s : Store) : List SiteDescriptor × Store :=
  (listResources s, s)

/-- Result of the `clear-cache` tool: the reported count, the state
afterwards, and the attempted deletions in order. -/
structure ClearResult where
  count : Nat
  store : Store
  trace : List Ev
deriving Repr, DecidableEq

/-- Embedding of the `clear-cache` tool (src/index.ts lines 365-402): count
the records first, then `fs.unlink` the blob of every record (the per-file
try/catch logs and continues on failure, modelled by the external success
oracle `delOk`), then save an empty metadata document.  The reported count
is the starting record count, whatever the deletions did. -/
def clearCache (hash : String → String) (delOk : String → Bool) (s : Store) :
    ClearResult :=
  let metadata := loadMetadata s.metaDoc
  let count := metadata.length
  let cacheAfter := metadata.foldl
    (fun c kv =>
      let filePath := getFileNameFromUrl hash kv.2.url
      if delOk filePath then c.filter (fun p => p.1 != filePath) else c)
    s.cache
  { count := count,
    store := saveMetadata [] { s with cache := cacheAfter },
    trace := metadata.map (fun kv => Ev.blobDelete (getFileNameFromUrl hash kv.2.url)) }

/-- Soft invariant of §3: every key present in the metadata index has a
corresponding blob in the cache store. -/
def metaBlobInv (s : Store) : Bool :=
  (loadMetadata s.metaDoc).all (fun kv => (s.cache.lookup kv.1).isSome)

/-- Fresh state: empty cache directory and the empty metadata document that
`initializeStorage` writes on first run (src/index.ts lines 21-37). -/
def emptyStore : Store :=
  { cache := [], metaDoc := .present [] }

/-- Phase of one in-flight `fetchSite(url, false)` call, cut at its `await`
points: before the `fs.access` cache-existence check, after the check found
no blob (about to run the crawler), or returned.  The crawl-read-save
section is coalesced into one segment, which only removes interleavings. -/
inductive Phase where
  | start
  | missed
  | finished (out : FetchOutcome)
deriving Repr, DecidableEq

/-- Two concurrent `fetchSite(url, false)` calls against the shared store,
with a count of crawler invocations so far. -/
structure ConcState where
  store : Store
  t0 : Phase
  t1 : Phase
  crawls : Nat
deriving Repr, DecidableEq

/-- One atomic segment of a `fetchSite(url, false)` call (src/index.ts
lines 76-121): the cache-existence check serves the blob on a hit and
otherwise proceeds to the miss path; the miss path invokes the crawler and,
on success, writes the blob and the metadata record.  Returns the store
afterwards, the new phase, and how many crawler invocations the segment
performed. -/
def stepThread (hash : String → String) (crawler : String → CrawlerResult)
    (now : Nat) (url : String) (st : Store) (ph : Phase) : Store × Phase × Nat :=
  match ph with
  | .start =>
    match st.cache.lookup (getFileNameFromUrl hash url) with
    | some blob => (st, .finished (.ok blob), 0)
    | none => (st, .missed, 0)
  | .missed =>
    match crawler url with
    | .success content =>
      let filePath := getFileNameFromUrl hash url
      let metadataAfter :=
        setEntry filePath { url := url, fetchedAt := now, title := extractTitle content }
          (loadMetadata st.metaDoc)
      (saveMetadata metadataAfter { st with cache := setEntry filePath content st.cache },
        .finished (.ok content), 1)
    | .failure none => (st, .finished (.err "Failed to fetch site"), 1)
    | .failure (some leftContent) =>
      ({ st with cache := setEntry (getFileNameFromUrl hash url) leftContent st.cache },
        .finished (.err "Failed to fetch site"), 1)
  | .finished out => (st, .finished out, 0)

/-- Run one step of the chosen thread (`false` is the first caller, `true`
the second) against the shared store. -/
def stepSys (hash : String → String) (crawler : String → CrawlerResult)
    (now : Nat) (url : String) (sys : ConcState) (which : Bool) : ConcState :=
  if which then
    let r := stepThread hash crawler now url sys.store sys.t1
    { store := r.1, t0 := sys.t0, t1 := r.2.1, crawls := sys.crawls + r.2.2 }
  else
    let r := stepThread hash crawler now url sys.store sys.t0
    { store := r.1, t0 := r.2.1, t1 := sys.t1, crawls := sys.crawls + r.2.2 }

/-- Run a whole interleaving schedule of the two concurrent calls. -/
def runSched (hash : String → String) (crawler : String → CrawlerResult)
    (now : Nat) (url : String) (sched : List Bool) (sys : ConcState) : ConcState :=
  sched.foldl (stepSys hash crawler now url) sys

theorem lookup_setEntry_self {β : Type} (k : String) (v : β)
    (l : List (String × β)) : (setEntry k v l).lookup k = some v := by
  simp [setEntry, List.lookup]

theorem lookup_filter_ne {β : Type} (k q : String) (l : List (String × β))
    (h : q ≠ k) : (l.filter (fun p => p.1 != k)).lookup q = l.lookup q := by
  induction l with
  | nil => rfl
  | cons p t ih =>
    by_cases hp : p.1 = k
    · have hf : (p.1 != k) = false := by simp [hp]
      have hq : (q == p.1) = false := by simp [hp, h]
      simp [List.filter, hf, List.lookup, hq, ih]
    · have : (p.1 != k) = true := by simp [hp]
      simp only [List.filter, this, List.lookup]
      cases hqk : q == p.1 with
      | true => rfl
      | false => exact ih

theorem lookup_setEntry_ne {β : Type} (k q : String) (v : β)
    (l : List (String × β)) (h : q ≠ k) :
    (setEntry k v l).lookup q = l.lookup q := by
  have hqk : (q == k) = false := by simp [h]
  simp only [setEntry, List.lookup, hqk]
  exact lookup_filter_ne k q l h

theorem hexVal_hexDigitChar : ∀ b, b < 16 → hexVal (hexDigitChar b) = some b := by
  decide

theorem char_toNat_lt (c : Char) : c.toNat < 1114112 := by
  have h := c.valid
  simp only [Char.toNat]
  rcases h with h | h <;> omega

theorem unreserved_ne_37 (n : Nat) (h : isUnreservedURI n = true) : n ≠ 37 := by
  simp [isUnreservedURI] at h
  omega

theorem utf8Bytes_lt_256 (n : Nat) (hn : n < 1114112) : ∀ b ∈ utf8Bytes n, b < 256 := by
  intro b hb
  unfold utf8Bytes at hb
  by_cases h1 : n < 128
  · simp [h1] at hb
    omega
  · by_cases h2 : n < 2048
    · simp [h1, h2] at hb
      rcases hb with hb | hb <;> omega
    · by_cases h3 : n < 65536
      · simp [h1, h2, h3] at hb
        rcases hb with hb | hb | hb <;> omega
      · simp [h1, h2, h3] at hb
        rcases hb with hb | hb | hb | hb <;> omega

theorem tokenize_escapeByte (b : Nat) (hb : b < 256) (rest : List Char) :
    tokenize (escapeByte b ++ rest) = (tokenize rest).map (fun t => Sum.inl b :: t) := by
  have h37 : (Char.ofNat 37).toNat = 37 := rfl
  have hhi : hexVal (hexDigitChar (b / 16)) = some (b / 16) :=
    hexVal_hexDigitChar _ (by omega)
  have hlo : hexVal (hexDigitChar (b % 16)) = some (b % 16) :=
    hexVal_hexDigitChar _ (by omega)
  simp only [escapeByte, List.cons_append, List.nil_append, tokenize, h37, if_pos, hhi, hlo]
  have hrec : 16 * (b / 16) + b % 16 = b := by omega
  simp [hrec]

theorem tokenize_escapes (bs : List Nat) (hbs : ∀ b ∈ bs, b < 256) (rest : List Char) :
    tokenize ((bs.map escapeByte).flatten ++ rest) =
      (tokenize rest).map (fun t => bs.map Sum.inl ++ t) := by
  induction bs with
  | nil =>
    simp only [List.map_nil, List.flatten_nil, List.nil_append]
    cases tokenize rest <;> rfl
  | cons b tl ih =>
    have hb : b < 256 := hbs b (by simp)
    have htl : ∀ x ∈ tl, x < 256 := fun x hx => hbs x (by simp [hx])
    simp only [List.map_cons, List.flatten_cons, List.append_assoc]
    rw [tokenize_escapeByte b hb, ih htl]
    cases tokenize rest <;> rfl

theorem tokenize_cons_ne (c : Char) (h : c.toNat ≠ 37) (rest : List Char) :
    tokenize (c :: rest) = (tokenize rest).map (fun t => Sum.inr c :: t) := by
  match rest with
  | [] => simp [tokenize, h]
  | [h1] => simp [tokenize, h]
  | h1 :: h2 :: r2 => simp [tokenize, h]

theorem tokenize_encode (u : List Char) :
    tokenize (encodeURIComponentL u) = some (encodeTokens u) := by
  induction u with
  | nil => rfl
  | cons c rest ih =>
    by_cases hu : isUnreservedURI c.toNat
    · have hne : c.toNat ≠ 37 := unreserved_ne_37 _ hu
      simp only [encodeURIComponentL, encodeTokens, if_pos hu, List.cons_append,
        List.nil_append]
      rw [tokenize_cons_ne c hne, ih]
      rfl
    · simp only [encodeURIComponentL, encodeTokens, if_neg hu]
      rw [tokenize_escapes _ (utf8Bytes_lt_256 _ (char_toNat_lt c)), ih]
      rfl

theorem cont_guard_true (n : Nat) :
    (decide (128 ≤ 128 + n % 64) && decide (128 + n % 64 < 192)) = true := by
  simp only [Bool.and_eq_true, decide_eq_true_eq]
  omega

theorem takeCont_length : ∀ (k : Nat) (ts : List (Sum Nat Char)) (v : Nat)
    (ts2 : List (Sum Nat Char)), takeCont k ts = some (v, ts2) →
    ts2.length + k = ts.length := by
  intro k
  induction k with
  | zero =>
    intro ts v ts2 h
    simp [takeCont] at h
    simp [h.2]
  | succ n ih =>
    intro ts v ts2 h
    match ts with
    | [] => simp [takeCont] at h
    | .inr c :: t => simp [takeCont] at h
    | .inl b :: t =>
      simp only [takeCont] at h
      by_cases hg : (128 ≤ b && b < 192) = true
      · rw [if_pos hg] at h
        cases htc : takeCont n t with
        | none => rw [htc] at h; simp at h
        | some p =>
          rw [htc] at h
          have hlen := ih t p.1 p.2 (by rw [htc])
          simp at h
          rcases h with ⟨h1, h2⟩
          subst h2
          simp only [List.length_cons]
          omega
      · rw [if_neg hg] at h
        simp at h

theorem detokF_mono : ∀ (f1 f2 : Nat) (ts : List (Sum Nat Char)),
    ts.length ≤ f1 → ts.length ≤ f2 → detokF f1 ts = detokF f2 ts := by
  intro f1
  induction f1 with
  | zero =>
    intro f2 ts h1 h2
    have hts : ts = [] := List.eq_nil_of_length_eq_zero (Nat.le_zero.mp h1)
    subst hts
    cases f2 <;> rfl
  | succ a ih =>
    intro f2 ts h1 h2
    match ts, f2 with
    | [], f2 => cases f2 <;> rfl
    | t :: ts, 0 => simp at h2
    | .inr c :: ts, b + 1 =>
      simp only [List.length_cons] at h1 h2
      simp only [detokF]
      rw [ih b ts (by omega) (by omega)]
    | .inl v :: ts, b + 1 =>
      simp only [List.length_cons] at h1 h2
      simp only [detokF]
      by_cases hv1 : v < 128
      · rw [if_pos hv1, if_pos hv1, ih b ts (by omega) (by omega)]
      · rw [if_neg hv1, if_neg hv1]
        by_cases hv2 : v < 192
        · rw [if_pos hv2, if_pos hv2]
        · rw [if_neg hv2, if_neg hv2]
          by_cases hv3 : v < 224
          · rw [if_pos hv3, if_pos hv3]
            cases htc : takeCont 1 ts with
            | none => simp only [htc]
            | some p =>
              have hl := takeCont_length 1 ts p.1 p.2 (by rw [htc])
              simp only [htc]
              rw [ih b p.2 (by omega) (by omega)]
          · rw [if_neg hv3, if_neg hv3]
            by_cases hv4 : v < 240
            · rw [if_pos hv4, if_pos hv4]
              cases htc : takeCont 2 ts with
              | none => simp only [htc]
              | some p =>
                have hl := takeCont_length 2 ts p.1 p.2 (by rw [htc])
                simp only [htc]
                rw [ih b p.2 (by omega) (by omega)]
            · rw [if_neg hv4, if_neg hv4]
              by_cases hv5 : v < 248
              · rw [if_pos hv5, if_pos hv5]
                cases htc : takeCont 3 ts with
                | none => simp only [htc]
                | some p =>
                  have hl := takeCont_length 3 ts p.1 p.2 (by rw [htc])
                  simp only [htc]
                  rw [ih b p.2 (by omega) (by omega)]
              · rw [if_neg hv5, if_neg hv5]

theorem detok_cons_inr (c : Char) (ts : List (Sum Nat Char)) :
    detok (.inr c :: ts) = (detok ts).map (fun t => c :: t) := by
  simp only [detok, List.length_cons, detokF]

theorem detok_utf8 (c : Char) (ts : List (Sum Nat Char)) :
    detok ((utf8Bytes c.toNat).map Sum.inl ++ ts) = (detok ts).map (fun t => c :: t) := by
  have hofn : Char.ofNat c.toNat = c := Char.ofNat_toNat c
  have hlt : c.toNat < 1114112 := char_toNat_lt c
  by_cases h1 : c.toNat < 128
  · simp only [utf8Bytes, if_pos h1, List.map_cons, List.map_nil, List.cons_append,
      List.nil_append, detok, List.length_cons, detokF, if_pos h1, hofn]
  · by_cases h2 : c.toNat < 2048
    · have htc : takeCont 1 (Sum.inl (128 + c.toNat % 64) :: ts) =
          some (c.toNat % 64, ts) := by
        simp only [takeCont, if_pos (cont_guard_true _), Option.map_some]
        simp
      simp only [utf8Bytes, if_neg h1, if_pos h2, List.map_cons, List.map_nil,
        List.cons_append, List.nil_append, detok, List.length_cons, detokF]
      rw [if_neg (by omega), if_neg (by omega), if_pos (by omega)]
      simp only [htc]
      rw [detokF_mono (ts.length + 1) ts.length ts (by omega) (by omega)]
      simp only [show (192 + c.toNat / 64 - 192) * 64 + c.toNat % 64 = c.toNat from by omega,
        hofn]
    · by_cases h3 : c.toNat < 65536
      · have htc : takeCont 2 (Sum.inl (128 + c.toNat / 64 % 64) ::
            Sum.inl (128 + c.toNat % 64) :: ts) =
            some ((c.toNat / 64 % 64) * 64 + c.toNat % 64, ts) := by
          simp only [takeCont, if_pos (cont_guard_true _), Option.map_some]
          simp
        simp only [utf8Bytes, if_neg h1, if_neg h2, if_pos h3, List.map_cons, List.map_nil,
          List.cons_append, List.nil_append, detok, List.length_cons, detokF]
        rw [if_neg (by omega), if_neg (by omega), if_neg (by omega), if_pos (by omega)]
        simp only [htc]
        rw [detokF_mono (ts.length + 2) ts.length ts (by omega) (by omega)]
        simp only [show (224 + c.toNat / 4096 - 224) * 4096
            + ((c.toNat / 64 % 64) * 64 + c.toNat % 64) = c.toNat from by omega, hofn]
      · have htc : takeCont 3 (Sum.inl (128 + c.toNat / 4096 % 64) ::
            Sum.inl (128 + c.toNat / 64 % 64) :: Sum.inl (128 + c.toNat % 64) :: ts) =
            some ((c.toNat / 4096 % 64) * 4096 + (c.toNat / 64 % 64) * 64 + c.toNat % 64,
              ts) := by
          simp only [takeCont, if_pos (cont_guard_true _), Option.map_some]
          simp
          omega
        simp only [utf8Bytes, if_neg h1, if_neg h2, if_neg h3, List.map_cons, List.map_nil,
          List.cons_append, List.nil_append, detok, List.length_cons, detokF]
        rw [if_neg (by omega), if_neg (by omega), if_neg (by omega), if_neg (by omega),
          if_pos (by omega)]
        simp only [htc]
        rw [detokF_mono (ts.length + 3) ts.length ts (by omega) (by omega)]
        simp only [show (240 + c.toNat / 262144 - 240) * 262144
            + ((c.toNat / 4096 % 64) * 4096 + (c.toNat / 64 % 64) * 64 + c.toNat % 64)
            = c.toNat from by omega, hofn]

theorem detok_encodeTokens (u : List Char) : detok (encodeTokens u) = some u := by
  induction u with
  | nil => rfl
  | cons c rest ih =>
    by_cases hu : isUnreservedURI c.toNat
    · simp only [encodeTokens, if_pos hu, List.cons_append, List.nil_append]
      rw [detok_cons_inr, ih]
      rfl
    · simp only [encodeTokens, if_neg hu]
      rw [detok_utf8, ih]
      rfl

theorem decode_encode_roundtrip (u : List Char) :
    decodeURIComponentL (encodeURIComponentL u) = some u := by
  simp [decodeURIComponentL, tokenize_encode, detok_encodeTokens]

/-- C3: for every string over the full legal URL character set (query
strings, fragments and non-ASCII included), decoding the canonical
`sitefetch://` resource identifier built from it yields the string back:
`fromIdentifier (toIdentifier u) = some u`. -/
theorem identifier_roundtrip (u : List Char) :
    fromIdentifier (toIdentifier u) = some u := by
  have hpre : "sitefetch://".data.isPrefixOf
      ("sitefetch://".data ++ encodeURIComponentL u) = true := by
    rw [List.isPrefixOf_iff_prefix]
    exact List.prefix_append _ _
  rw [toIdentifier, fromIdentifier, if_pos hpre,
    show (12 : Nat) = ("sitefetch://".data).length from rfl, List.drop_left]
  exact decode_encode_roundtrip u

theorem string_mk_data (s : String) : String.mk s.data = s := by
  cases s
  rfl

/-- C2: the claim says a present-but-unparseable metadata document must
surface a MetadataCorruption error, distinguishable from an absent document.
The code's `loadMetadata` catches every error and returns the empty mapping,
so a corrupt document evaluates to the empty mapping, exactly as an absent
one does: the two outcomes are indistinguishable and no error is surfaced. -/
theorem loadMetadata_corrupt_indistinguishable :
    loadMetadata .corrupt = ([] : List (String × CacheRecord)) ∧
    loadMetadata .corrupt = loadMetadata .absent := by
  exact ⟨rfl, rfl⟩

/-- C1: the claim says a crawler failure leaves MetadataIndex and CacheStore
exactly as before the call, with no partial blob for key(url).  The code
passes the final cache path to the external crawler as its output path, so
when the crawler fails after writing partial output there, `fetchSite`
rethrows the error and leaves the metadata document unchanged, but the
cache now holds the partial blob under key(url), which was absent before
the call. -/
theorem fetchFailure_leaves_partial_blob :
    (fetchSite id (fun _ => .failure (some "partial output")) 0
        "https://example.com" false emptyStore).result = .err "Failed to fetch site" ∧
    (fetchSite id (fun _ => .failure (some "partial output")) 0
        "https://example.com" false emptyStore).store.metaDoc = emptyStore.metaDoc ∧
    emptyStore.cache.lookup "https://example.com.txt" = none ∧
    (fetchSite id (fun _ => .failure (some "partial output")) 0
        "https://example.com" false emptyStore).store.cache.lookup
      "https://example.com.txt" = some "partial output" := by
  exact ⟨rfl, rfl, rfl, rfl⟩

/-- C7: `clear-cache` reports the number of records that existed at the
start whatever the per-item deletion oracle does, attempts the deletion of
every record's blob in order (failures are skipped, not propagated — the
result carries no error case), and replaces the metadata document with the
empty mapping. -/
theorem clearCache_counts_and_resets (hash : String → String)
    (delOk : String → Bool) (s : Store) :
    (clearCache hash delOk s).count = (loadMetadata s.metaDoc).length ∧
    (clearCache hash delOk s).store.metaDoc = .present [] ∧
    (clearCache hash delOk s).trace =
      (loadMetadata s.metaDoc).map
        (fun kv => Ev.blobDelete (getFileNameFromUrl hash kv.2.url)) := by
  exact ⟨rfl, rfl, rfl⟩

/-- C8: the claim says two concurrent `fetch(url, false)` calls on an
uncached URL result in exactly one crawler invocation.  `fetchSite` has no
per-key lock or in-flight deduplication, so in the interleaving where both
calls pass their `fs.access` cache-existence check before either crawl
completes, each call takes the miss path and the crawler runs twice; the
purely sequential schedule performs one invocation, exhibiting the race. -/
theorem concurrent_fetch_double_invocation :
    (runSched id (fun _ => .success "C") 0 "u" [false, true, false, true]
      { store := emptyStore, t0 := .start, t1 := .start, crawls := 0 }).crawls = 2 ∧
    (runSched id (fun _ => .success "C") 0 "u" [false, true, false, true]
      { store := emptyStore, t0 := .start, t1 := .start, crawls := 0 }).t0
        = .finished (.ok "C") ∧
    (runSched id (fun _ => .success "C") 0 "u" [false, true, false, true]
      { store := emptyStore, t0 := .start, t1 := .start, crawls := 0 }).t1
        = .finished (.ok "C") ∧
    (runSched id (fun _ => .success "C") 0 "u" [false, false, true]
      { store := emptyStore, t0 := .start, t1 := .start, crawls := 0 }).crawls = 1 := by
  exact ⟨by decide, by decide, by decide, by decide⟩

/-- C4: for a URL whose blob is already in the cache, `fetchSite(url, false)`
hits the `fs.access` check and returns the stored blob unchanged, with no
crawler invocation (empty event trace) and the store — metadata document
included — exactly as before; repeated calls therefore keep returning the
same content. -/
theorem fetch_cacheHit_readonly (hash : String → String) (crawler : String → CrawlerResult)
    (now : Nat) (url : String) (s : Store) (content : String)
    (hcached : s.cache.lookup (getFileNameFromUrl hash url) = some content) :
    fetchSite hash crawler now url false s =
      { result := .ok content, store := s, trace := [] } := by
  simp [fetchSite, hcached]

theorem fetch_cacheHit_readonly_witness :
    fetchSite id (fun _ => .failure none) 0 "u" false
        { cache := [("u.txt", "blob")], metaDoc := .present [] } =
      { result := .ok "blob",
        store := { cache := [("u.txt", "blob")], metaDoc := .present [] },
        trace := [] } :=
  fetch_cacheHit_readonly id (fun _ => .failure none) 0 "u" _ "blob" (by decide)

/-- C5: `fetchSite(url, true)` skips the cache-existence check entirely, so
the crawler is invoked exactly once even though a blob for the URL is
cached; when the crawler succeeds, the metadata record for key(url) is
replaced by one stamped with the current time, strictly newer than the
previous record whenever the clock has advanced past it. -/
theorem fetch_forceRefresh_reinvokes (hash : String → String)
    (crawler : String → CrawlerResult) (now : Nat) (url : String) (s : Store)
    (oldRec : CacheRecord) (blob : String)
    (hcached : s.cache.lookup (getFileNameFromUrl hash url) = some blob)
    (hold : (loadMetadata s.metaDoc).lookup (getFileNameFromUrl hash url) = some oldRec)
    (hclock : oldRec.fetchedAt < now) :
    (fetchSite hash crawler now url true s).trace.countP Ev.isInvoke = 1 ∧
    (∀ content, crawler url = .success content →
      ∃ newRec,
        (loadMetadata (fetchSite hash crawler now url true s).store.metaDoc).lookup
            (getFileNameFromUrl hash url) = some newRec ∧
        oldRec.fetchedAt < newRec.fetchedAt ∧
        newRec = { url := url, fetchedAt := now, title := extractTitle content }) := by
  constructor
  · cases hcr : crawler url with
    | success content =>
      simp [fetchSite, hcr, List.countP_cons, Ev.isInvoke]
    | failure leftover =>
      cases leftover <;> simp [fetchSite, hcr, List.countP_cons, Ev.isInvoke]
  · intro content hcr
    refine ⟨{ url := url, fetchedAt := now, title := extractTitle content }, ?_,
      by simpa using hclock, rfl⟩
    simp [fetchSite, hcr, saveMetadata, loadMetadata, lookup_setEntry_self]

theorem fetch_forceRefresh_reinvokes_witness :
    (fetchSite id (fun _ => .success "<title>New</title>") 5 "u" true
        { cache := [("u.txt", "old")],
          metaDoc := .present [("u.txt", { url := "u", fetchedAt := 3, title := "t" })] }).trace.countP
      Ev.isInvoke = 1 ∧
    (∃ newRec,
      (loadMetadata (fetchSite id (fun _ => .success "<title>New</title>") 5 "u" true
          { cache := [("u.txt", "old")],
            metaDoc := .present [("u.txt", { url := "u", fetchedAt := 3, title := "t" })] }).store.metaDoc).lookup
          (getFileNameFromUrl id "u") = some newRec ∧
      3 < newRec.fetchedAt ∧
      newRec = { url := "u", fetchedAt := 5, title := extractTitle "<title>New</title>" }) :=
  ⟨(fetch_forceRefresh_reinvokes id (fun _ => .success "<title>New</title>") 5 "u"
      { cache := [("u.txt", "old")],
        metaDoc := .present [("u.txt", { url := "u", fetchedAt := 3, title := "t" })] }
      { url := "u", fetchedAt := 3, title := "t" } "old"
      (by decide) (by decide) (by decide)).1,
   (fetch_forceRefresh_reinvokes id (fun _ => .success "<title>New</title>") 5 "u"
      { cache := [("u.txt", "old")],
        metaDoc := .present [("u.txt", { url := "u", fetchedAt := 3, title := "t" })] }
      { url := "u", fetchedAt := 3, title := "t" } "old"
      (by decide) (by decide) (by decide)).2 "<title>New</title>" rfl⟩

/-- C9: reading the `sitefetch://{url}` resource for a URL whose blob is not
cached is not read-only: the handler decodes the template variable and calls
`fetchSite(decodedUrl)` with `forceRefresh` defaulted to false, so on a
cache miss it invokes the crawler once, ingests blob and metadata record,
and returns the content (with the context hint appended) — while
`add-to-context` on the same state fails with a not-found error and leaves
the store untouched. -/
theorem resourceRead_fetches_on_miss (hash : String → String)
    (crawler : String → CrawlerResult) (now : Nat) (urlParam url content : String)
    (s : Store) (canNotify : Bool)
    (hdec : decodeURIComponentL urlParam.data = some url.data)
    (hmiss : s.cache.lookup (getFileNameFromUrl hash url) = none)
    (hcr : crawler url = .success content) :
    (resourceRead hash crawler now urlParam s).1 = .ok (content ++ contextHint url) ∧
    (resourceRead hash crawler now urlParam s).2.2.countP Ev.isInvoke = 1 ∧
    (resourceRead hash crawler now urlParam s).2.1.cache.lookup
        (getFileNameFromUrl hash url) = some content ∧
    (loadMetadata (resourceRead hash crawler now urlParam s).2.1.metaDoc).lookup
        (getFileNameFromUrl hash url) =
      some { url := url, fetchedAt := now, title := extractTitle content } ∧
    addToContextTool hash canNotify url s =
      (.err ("Error: Content for " ++ url ++
        " not found. Please fetch it first with fetch-site."), s) := by
  have hmk : String.mk url.data = url := string_mk_data url
  simp only [resourceRead, hdec, hmk]
  simp [fetchSite, hmiss, hcr, saveMetadata, loadMetadata, lookup_setEntry_self,
    List.countP_cons, Ev.isInvoke, addToContextTool]

theorem resourceRead_fetches_on_miss_witness :
    (resourceRead id (fun _ => .success "C") 9 "https%3A%2F%2Fexample.com"
        emptyStore).1 = .ok ("C" ++ contextHint "https://example.com") ∧
    (resourceRead id (fun _ => .success "C") 9 "https%3A%2F%2Fexample.com"
        emptyStore).2.2.countP Ev.isInvoke = 1 ∧
    (resourceRead id (fun _ => .success "C") 9 "https%3A%2F%2Fexample.com"
        emptyStore).2.1.cache.lookup
        (getFileNameFromUrl id "https://example.com") = some "C" ∧
    (loadMetadata (resourceRead id (fun _ => .success "C") 9 "https%3A%2F%2Fexample.com"
        emptyStore).2.1.metaDoc).lookup (getFileNameFromUrl id "https://example.com") =
      some { url := "https://example.com", fetchedAt := 9, title := extractTitle "C" } ∧
    addToContextTool id false "https://example.com" emptyStore =
      (.err ("Error: Content for " ++ "https://example.com" ++
        " not found. Please fetch it first with fetch-site."), emptyStore) :=
  resourceRead_fetches_on_miss id (fun _ => .success "C") 9 "https%3A%2F%2Fexample.com"
    "https://example.com" "C" emptyStore false (by decide) (by decide) rfl

/-- C10: the claim says every record written by a successful fetch has a
non-empty title (the sentinel covering the no-title case), so the listing
never falls back to the source URL.  Counterexample: for content whose
title element holds only white space, the captured group is non-empty (so
the truthiness guard passes) and trims to the empty string; the successful
fetch then writes a record with an empty title and the listing falls back
to the URL. -/
theorem extractTitle_empty_counterexample :
    extractTitle "<title> </title>" = "" ∧
    (loadMetadata (fetchSite id (fun _ => .success "<title> </title>") 0 "u" false
        emptyStore).store.metaDoc).lookup "u.txt" =
      some { url := "u", fetchedAt := 0, title := "" } ∧
    displayName "" "u" = "u" := by
  exact ⟨by decide, by decide, by decide⟩

theorem extractTitle_eq_empty (content : String) (he : extractTitle content = "") :
    ∃ b, titleSearch content.data = some b ∧ b ≠ [] ∧ trimL b = [] := by
  unfold extractTitle at he
  cases hts : titleSearch content.data with
  | none =>
    rw [hts] at he
    have he2 : ("No title found" : String) = "" := he
    exact absurd he2 (by decide)
  | some b =>
    rw [hts] at he
    have he2 : (if b.isEmpty = true then ("No title found" : String)
        else String.mk (trimL b)) = "" := he
    by_cases hb : b.isEmpty
    · rw [if_pos hb] at he2
      exact absurd he2 (by decide)
    · rw [if_neg hb] at he2
      refine ⟨b, rfl, by simpa using hb, ?_⟩
      have hd := congrArg String.data he2
      simpa using hd

/-- C10 amended: the title a fetch stores is either the sentinel
`"No title found"` (no title element, or an empty captured group) or the
trimmed captured text; the latter is empty exactly when the captured title
text is non-empty but all white space, and in that case — and only on
empty titles — the listing display name falls back to the source URL, so
the sentinel itself is always displayed as the name. -/
theorem extractTitle_cases_and_fallback (content url : String) :
    (extractTitle content = "No title found" ∨
      ∃ b, titleSearch content.data = some b ∧ b ≠ [] ∧
        extractTitle content = String.mk (trimL b)) ∧
    (extractTitle content ≠ "" →
      displayName (extractTitle content) url = extractTitle content) ∧
    (extractTitle content = "" →
      displayName (extractTitle content) url = url ∧
      ∃ b, titleSearch content.data = some b ∧ b ≠ [] ∧ trimL b = []) := by
  refine ⟨?_, ?_, ?_⟩
  · cases hts : titleSearch content.data with
    | none =>
      left
      simp [extractTitle, hts]
    | some b =>
      by_cases hb : b.isEmpty
      · left
        simp [extractTitle, hts, hb]
      · right
        exact ⟨b, rfl, by simpa using hb, by simp [extractTitle, hts, hb]⟩
  · intro hne
    simp [displayName, hne]
  · intro he
    exact ⟨by simp [displayName, he], extractTitle_eq_empty content he⟩

theorem extractTitle_cases_and_fallback_witness :
    displayName (extractTitle "<title>Hi</title>") "u"
      = extractTitle "<title>Hi</title>" :=
  (extractTitle_cases_and_fallback "<title>Hi</title>" "u").2.1 (by decide)

theorem all_lookup_setEntry (meta : List (String × CacheRecord))
    (cache : List (String × String)) (fp content : String)
    (h : meta.all (fun kv => (cache.lookup kv.1).isSome) = true) :
    meta.all (fun kv => ((setEntry fp content cache).lookup kv.1).isSome) = true := by
  rw [List.all_eq_true] at *
  intro kv hkv
  by_cases hk : kv.1 = fp
  · rw [hk, lookup_setEntry_self]
    rfl
  · rw [lookup_setEntry_ne _ _ _ _ hk]
    exact h kv hkv

theorem all_lookup_ingest (meta : List (String × CacheRecord))
    (cache : List (String × String)) (fp content : String) (rec : CacheRecord)
    (h : meta.all (fun kv => (cache.lookup kv.1).isSome) = true) :
    (setEntry fp rec meta).all
      (fun kv => ((setEntry fp content cache).lookup kv.1).isSome) = true := by
  rw [List.all_eq_true] at *
  intro kv hkv
  simp only [setEntry] at hkv
  rcases List.mem_cons.mp hkv with heq | hmem
  · rw [heq]
    simp [lookup_setEntry_self]
  · have hm := List.mem_filter.mp hmem
    have hk : kv.1 ≠ fp := by simpa using hm.2
    rw [lookup_setEntry_ne _ _ _ _ hk]
    exact h kv hm.1

theorem metaBlobInv_fetchSite (hash : String → String)
    (crawler : String → CrawlerResult) (now : Nat) (url : String) (fr : Bool)
    (s : Store) (h : metaBlobInv s = true) :
    metaBlobInv (fetchSite hash crawler now url fr s).store = true := by
  unfold metaBlobInv at h
  simp only [fetchSite]
  split
  · exact h
  · split
    · exact all_lookup_ingest _ _ _ _ _ h
    · split
      · exact h
      · exact all_lookup_setEntry _ _ _ _ h

theorem addToContextTool_store (hash : String → String) (canNotify : Bool)
    (url : String) (s : Store) : (addToContextTool hash canNotify url s).2 = s := by
  simp only [addToContextTool]
  split
  · rfl
  · split <;> rfl

theorem fetch_blob_before_meta (hash : String → String)
    (crawler : String → CrawlerResult) (now : Nat) (url : String) (fr : Bool)
    (s : Store) :
    ∀ l1 l2, (fetchSite hash crawler now url fr s).trace = l1 ++ Ev.metaWrite :: l2 →
      Ev.blobWrite (getFileNameFromUrl hash url) ∈ l1 := by
  intro l1 l2 htr
  simp only [fetchSite] at htr
  split at htr
  · simp at htr
  · split at htr
    · rcases l1 with _ | ⟨a, _ | ⟨b, _ | ⟨c, l⟩⟩⟩ <;> simp_all
    · split at htr
      · rcases l1 with _ | ⟨a, l⟩ <;> simp_all
      · rcases l1 with _ | ⟨a, _ | ⟨b, l⟩⟩ <;> simp_all

/-- C6: every completed operation preserves the invariant that each key
present in the metadata index has a blob in the cache: fetch (all paths),
clear-cache, list-sites, add-to-context and the resource read handler all
leave a state satisfying it; moreover within a fetch the blob write event
strictly precedes the metadata write event, so an index entry is never
committed before its blob. -/
theorem ops_preserve_blob_invariant (hash : String → String)
    (crawler : String → CrawlerResult) (now : Nat) (url urlParam : String)
    (fr canNotify : Bool) (delOk : String → Bool) (s : Store)
    (h : metaBlobInv s = true) :
    metaBlobInv (fetchSite hash crawler now url fr s).store = true ∧
    metaBlobInv (clearCache hash delOk s).store = true ∧
    metaBlobInv (listSitesTool s).2 = true ∧
    metaBlobInv (addToContextTool hash canNotify url s).2 = true ∧
    metaBlobInv (resourceRead hash crawler now urlParam s).2.1 = true ∧
    (∀ l1 l2, (fetchSite hash crawler now url fr s).trace = l1 ++ Ev.metaWrite :: l2 →
      Ev.blobWrite (getFileNameFromUrl hash url) ∈ l1) := by
  refine ⟨metaBlobInv_fetchSite hash crawler now url fr s h, rfl, h, ?_, ?_,
    fetch_blob_before_meta hash crawler now url fr s⟩
  · rw [addToContextTool_store]
    exact h
  · simp only [resourceRead]
    split
    · exact h
    · split
      · exact metaBlobInv_fetchSite hash crawler now _ false s h
      · exact metaBlobInv_fetchSite hash crawler now _ false s h

theorem ops_preserve_blob_invariant_witness :
    metaBlobInv emptyStore = true ∧
    metaBlobInv (fetchSite id (fun _ => .success "C") 2 "u" false emptyStore).store = true ∧
    metaBlobInv (clearCache id (fun _ => true) emptyStore).store = true :=
  ⟨by decide,
   (ops_preserve_blob_invariant id (fun _ => .success "C") 2 "u" "u" false false
      (fun _ => true) emptyStore (by decide)).1,
   (ops_preserve_blob_invariant id (fun _ => .success "C") 2 "u" "u" false false
      (fun _ => true) emptyStore (by decide)).2.1⟩

end SiteFetch
